import Mathlib

/- Verification development for the bootc status subsystem (`src/lib/src/status.rs`):
   the reference translator, the boot-entry builder, the deployment classifier and
   the host-status assembler, shallowly embedded in Lean. -/

set_option linter.unusedVariables false

/-- Decidable equality for `Except`, needed because deployments carry fallible
external results as explicit `Except` values. -/
instance instDecEqExcept {e a : Type} [DecidableEq e] [DecidableEq a] : DecidableEq (Except e a)
  | .ok x, .ok y =>
    if h : x = y then .isTrue (by rw [h]) else .isFalse (fun hc => h (Except.ok.inj hc))
  | .error x, .error y =>
    if h : x = y then .isTrue (by rw [h]) else .isFalse (fun hc => h (Except.error.inj hc))
  | .ok _, .error _ => .isFalse (fun hc => Except.noConfusion hc)
  | .error _, .ok _ => .isFalse (fun hc => Except.noConfusion hc)

/- ----------------------------------------------------------------
   Reference translator (status.rs lines 20-84)
   ---------------------------------------------------------------- -/

/-- Tool-side signature policy, `crate::spec::ImageSignature`.
Modelled from the spec: §3 tagged union OstreeRemote | ContainerPolicy | Insecure
(the `spec` module is not under src/). -/
inductive ImageSignature where
  | OstreeRemote (remote : String)
  | ContainerPolicy
  | Insecure
  deriving DecidableEq

/-- External signature verification mode, `ostree_container::SignatureSource`.
Modelled from the spec: §4.1 external "signature verification mode" of the
out-of-scope container stack; the allow-insecure mode is its third state. -/
inductive SignatureSource where
  | OstreeRemote (remote : String)
  | ContainerPolicy
  | ContainerPolicyAllowInsecure
  deriving DecidableEq

/-- External transport enum, `ostree_container::Transport`.
Modelled from the spec: §3 "fixed small vocabulary" of transports of the
out-of-scope container stack (registry, oci, oci-archive, docker-archive,
containers-storage, dir). -/
inductive Transport where
  | Registry
  | OciDir
  | OciArchive
  | DockerArchive
  | ContainerStorage
  | Dir
  deriving DecidableEq

/-- External image reference, `ostree_container::ImageReference`. -/
structure ContainerImageReference where
  transport : Transport
  name : String
  deriving DecidableEq

/-- External reference + verification mode, `ostree_container::OstreeImageReference`. -/
structure OstreeImageReference where
  sigverify : SignatureSource
  imgref : ContainerImageReference
  deriving DecidableEq

/-- Tool-side image reference, `crate::spec::ImageReference`.
Modelled from the spec: §3 triple of opaque address, canonical transport tag
and optional signature (the `spec` module is not under src/). -/
structure ImageReference where
  signature : Option ImageSignature
  transport : String
  image : String
  deriving DecidableEq

/-- Embeds `impl From<SignatureSource> for ImageSignature` (status.rs lines 20-29). -/
def ImageSignature.fromSignatureSource : SignatureSource → ImageSignature
  | .OstreeRemote r => .OstreeRemote r
  | .ContainerPolicy => .ContainerPolicy
  | .ContainerPolicyAllowInsecure => .Insecure

/-- Embeds `impl From<ImageSignature> for SignatureSource` (status.rs lines 31-40). -/
def SignatureSource.fromImageSignature : ImageSignature → SignatureSource
  | .OstreeRemote r => .OstreeRemote r
  | .ContainerPolicy => .ContainerPolicy
  | .Insecure => .ContainerPolicyAllowInsecure

/-- Modelled from the spec: the Display serialization of the external
`ostree_container::Transport` (out-of-scope collaborator, §4.1): every
non-registry transport is written with a trailing colon-delimited segment,
and the registry transport is written as the docker scheme. -/
def Transport.toDisplayString : Transport → String
  | .Registry => "docker://"
  | .OciDir => "oci:"
  | .OciArchive => "oci-archive:"
  | .DockerArchive => "docker-archive:"
  | .ContainerStorage => "containers-storage:"
  | .Dir => "dir:"

/-- Modelled from the spec: parsing of transport tokens by the external
`TryFrom<&str> for ostree_container::Transport` (out-of-scope collaborator,
§4.1 / §3 "fixed small vocabulary"; "docker" is an accepted alias for the
registry transport). Returns `none` on an unrecognized token. -/
def Transport.tryFromString (value : String) : Option Transport :=
  if value = "registry" ∨ value = "docker" then some .Registry
  else if value = "oci" then some .OciDir
  else if value = "oci-archive" then some .OciArchive
  else if value = "docker-archive" then some .DockerArchive
  else if value = "containers-storage" then some .ContainerStorage
  else if value = "dir" then some .Dir
  else none

/-- Characters strictly before the last colon of a character list; `none` when no
colon occurs. This is the effect of `s.truncate(s.rfind(':'))` in the source,
with `none` standing for the `rfind` unwrap panic. -/
def takeBeforeLastColon : List Char → Option (List Char)
  | [] => none
  | c :: cs =>
    match takeBeforeLastColon cs with
    | some rest => some (c :: rest)
    | none => if c = ':' then some [] else none

/-- Embeds `transport_to_string` (status.rs lines 43-53): registry is canonicalized
to the literal token, every other transport has the segment after its last colon
stripped from its Display form. -/
def transport_to_string (transport : Transport) : String :=
  match transport with
  | .Registry => "registry"
  | o => ((takeBeforeLastColon o.toDisplayString.toList).map String.mk).get!

/-- Embeds `impl From<OstreeImageReference> for ImageReference` (status.rs
lines 55-67): the translation from the external representation. -/
def ImageReference.fromOstree (imgref : OstreeImageReference) : ImageReference :=
  let signature : Option ImageSignature :=
    match imgref.sigverify with
    | .ContainerPolicyAllowInsecure => none
    | v => some (ImageSignature.fromSignatureSource v)
  { signature := signature
    transport := transport_to_string imgref.imgref.transport
    image := imgref.imgref.name }

/-- Embeds `impl From<ImageReference> for OstreeImageReference` (status.rs
lines 69-84): the translation to the external representation. The source calls
`try_into().unwrap()` on the transport string; `none` models that unwrap panic
on a malformed transport token. -/
def OstreeImageReference.fromImage (img : ImageReference) : Option OstreeImageReference :=
  let sigverify : SignatureSource :=
    match img.signature with
    | some v => SignatureSource.fromImageSignature v
    | none => SignatureSource.ContainerPolicyAllowInsecure
  (Transport.tryFromString img.transport).map (fun t =>
    { sigverify := sigverify
      imgref := { transport := t, name := img.image } })

/-- Round-trip of a tool-side reference through the external representation:
`fromExternal(toExternal(r))`, `none` when `toExternal` panics. -/
def reference_roundtrip (r : ImageReference) : Option ImageReference :=
  (OstreeImageReference.fromImage r).map ImageReference.fromOstree

/- ----------------------------------------------------------------
   Data model of crate::spec / crate::store (not under src/)
   ---------------------------------------------------------------- -/

/-- Modelled from the spec: `crate::spec::ImageStatus`, the per-image cached
status (address, version, digest) supplied by the external image-status
provider (§3, §6). -/
structure ImageStatus where
  image : ImageReference
  version : Option String
  imageDigest : Option String
  deriving DecidableEq

/-- Modelled from the spec: `crate::store::CachedImageStatus` (§3); the default
has both fields absent. -/
structure CachedImageStatus where
  image : Option ImageStatus
  cachedUpdate : Option ImageStatus
  deriving DecidableEq

instance : Inhabited CachedImageStatus := ⟨⟨none, none⟩⟩

/-- Modelled from the spec: `crate::spec::BootEntryOstree` (§3). -/
structure BootEntryOstree where
  checksum : String
  deploySerial : Nat
  deriving DecidableEq

/-- Modelled from the spec: `crate::spec::BootEntry` (§3); the store spec is kept
as an opaque token. -/
structure BootEntry where
  image : Option ImageStatus
  cachedUpdate : Option ImageStatus
  incompatible : Bool
  store : Option String
  pinned : Bool
  ostree : Option BootEntryOstree
  deriving DecidableEq

/-- Modelled from the spec: `crate::spec::BootOrder` (§3 enum Default | Rollback). -/
inductive BootOrder where
  | Default
  | Rollback
  deriving DecidableEq

/-- Modelled from the spec: `crate::spec::HostType` (§3). -/
inductive HostType where
  | BootcHost
  deriving DecidableEq

/-- Modelled from the spec: `crate::spec::HostSpec` (§3 declared intent). -/
structure HostSpec where
  image : Option ImageReference
  bootOrder : BootOrder
  deriving DecidableEq

/-- Modelled from the spec: the derived `Default` of `HostSpec` — image absent and
boot order `Default` (§3; `BootOrder`'s default variant is `Default`). -/
instance : Inhabited HostSpec := ⟨⟨none, .Default⟩⟩

/-- Modelled from the spec: `crate::spec::HostStatus` (§3 observed state). -/
structure HostStatus where
  staged : Option BootEntry
  booted : Option BootEntry
  rollback : Option BootEntry
  rollbackQueued : Bool
  ty : Option HostType
  deriving DecidableEq

/-- Modelled from the spec: `crate::spec::Host` (§3 full snapshot). -/
structure Host where
  spec : HostSpec
  status : HostStatus
  deriving DecidableEq

/- ----------------------------------------------------------------
   External deployment store interface (§6, §9)
   ---------------------------------------------------------------- -/

/-- Modelled from the spec: the data behind one origin keyfile at the interface
used by the builder (§4.2): the out-of-band-modification answer given by
`origin_has_rpmostree_stuff`, and the container-image reference extracted by
`get_image_origin` (fallible keyfile read / reference parse). -/
structure OriginData where
  hasRpmostreeStuff : Bool
  containerImage : Except String (Option OstreeImageReference)
  deriving DecidableEq

/-- Modelled from the spec: one external `ostree::Deployment` record at the
interface consumed here (§6): state-root name, boot index, staged and pinned
flags, checksum, deploy serial, optional origin, and the fallible result of
its per-deployment `store()` call. Equality is structural, standing for the
store's identity-based `equal` (§9). -/
structure Deployment where
  osname : String
  index : Nat
  staged : Bool
  pinned : Bool
  csum : String
  deployserial : Nat
  origin : Option OriginData
  storeResult : Except String (Option String)
  deriving DecidableEq

/-- Embeds `Deployment::equal` as used by the classifier retain step. -/
def Deployment.equal (a b : Deployment) : Bool :=
  decide (a = b)

/-- Modelled from the spec: the slice of `crate::store::Storage` consumed here —
the sysroot-wide default store (§4.2 step 4 fallback). -/
structure Storage where
  store : String

/-- Shape of the external image-status provider (§6
`imageStatus(deployment, imageRef) -> CachedImageStatus`, fallible). -/
def ImageStatusProvider : Type :=
  Deployment → OstreeImageReference → Except String CachedImageStatus

/- ----------------------------------------------------------------
   Boot entry builder (status.rs lines 119-167)
   ---------------------------------------------------------------- -/

/-- Embeds `boot_entry_from_deployment` (status.rs lines 121-167). The external
image-status provider is passed as a function argument. -/
def boot_entry_from_deployment (sysroot : Storage) (provider : ImageStatusProvider)
    (deployment : Deployment) : Except String BootEntry := do
  let (store, cis, incompatible) ←
    match deployment.origin with
    | some origin =>
      let incompatible := origin.hasRpmostreeStuff
      if incompatible then
        -- If there are local changes, we can't represent it as a bootc compatible image.
        Except.ok ((none : Option String), (default : CachedImageStatus), true)
      else do
        match ← origin.containerImage with
        | some image => do
          let store ← deployment.storeResult
          let store := store.getD sysroot.store
          let spec := some store
          let status ← provider deployment image
          Except.ok (spec, status, false)
        | none =>
          -- The deployment isn't using a container image
          Except.ok ((none : Option String), (default : CachedImageStatus), false)
    | none =>
      -- The deployment has no origin at all
      Except.ok ((none : Option String), (default : CachedImageStatus), false)
  Except.ok
    { image := cis.image
      cachedUpdate := cis.cachedUpdate
      incompatible := incompatible
      store := store
      pinned := deployment.pinned
      ostree := some { checksum := deployment.csum, deploySerial := deployment.deployserial } }

/- ----------------------------------------------------------------
   Deployment classifier (status.rs lines 198-235)
   ---------------------------------------------------------------- -/

/-- Working set produced by classification, `Deployments` (status.rs lines 96-101). -/
structure Deployments where
  staged : Option Deployment
  rollback : Option Deployment
  other : List Deployment
  deriving DecidableEq

/-- Full classifier verdict: the working set plus the boot-order outputs (§4.3). -/
structure ClassifierOut where
  staged : Option Deployment
  rollback : Option Deployment
  other : List Deployment
  rollbackQueued : Bool
  bootOrder : BootOrder
  deriving DecidableEq

/-- Embeds the partition step (status.rs lines 202-206): deployments whose
state-root matches the booted deployment's, and the rest, order preserved. -/
def relatedOf (deployments : List Deployment) (booted : Option Deployment) :
    List Deployment × List Deployment :=
  let stateroot := booted.map (fun d => d.osname)
  deployments.partition (fun d => decide (some d.osname = stateroot))

/-- Embeds the staged extraction (status.rs lines 207-210): the position of the
first deployment with the staged flag, removed from the queue and returned. -/
def extractStaged (l : List Deployment) : Option Deployment × List Deployment :=
  match l.findIdx? (fun d => d.staged) with
  | some i => (l[i]?, l.eraseIdx i)
  | none => (none, l)

/-- Related deployments remaining after staged extraction and the booted retain
step (status.rs lines 207-215). -/
def relatedAfterBooted (deployments : List Deployment) (booted : Option Deployment) :
    List Deployment :=
  let rest := (extractStaged (relatedOf deployments booted).1).2
  match booted with
  | some b => rest.filter (fun f => !(f.equal b))
  | none => rest

/-- Embeds the classification part of `get_status` (status.rs lines 198-235):
partition by state-root, staged extraction, booted retain, rollback pop,
rollback-queued test and boot-order verdict. -/
def classify (deployments : List Deployment) (booted : Option Deployment) : ClassifierOut :=
  let staged := (extractStaged (relatedOf deployments booted).1).1
  let rel := relatedAfterBooted deployments booted
  let rollback := rel.head?
  let rollbackQueued :=
    match booted, rollback with
    | some b, some r => decide (r.index < b.index)
    | _, _ => false
  let bootOrder := if rollbackQueued then BootOrder.Rollback else BootOrder.Default
  { staged := staged
    rollback := rollback
    other := rel.tail ++ (relatedOf deployments booted).2
    rollbackQueued := rollbackQueued
    bootOrder := bootOrder }

/- ----------------------------------------------------------------
   Host status assembler (status.rs lines 237-283)
   ---------------------------------------------------------------- -/

/-- Embeds the `HostSpec` assembly expression (status.rs lines 254-262):
`staged.as_ref().or(booted.as_ref()).and_then(|e| e.image.as_ref())
 .map(|img| HostSpec { image, boot_order }).unwrap_or_default()`. -/
def assemble_spec (staged booted : Option BootEntry) (boot_order : BootOrder) : HostSpec :=
  match (staged.or booted).bind (fun entry => entry.image) with
  | some img => { image := some img.image, bootOrder := boot_order }
  | none => default

/-- Embeds `.as_ref().map(|d| boot_entry_from_deployment(..)).transpose()`. -/
def mapEntry (sysroot : Storage) (provider : ImageStatusProvider) :
    Option Deployment → Except String (Option BootEntry)
  | some d => (boot_entry_from_deployment sysroot provider d).map some
  | none => Except.ok none

/-- Embeds `get_status` (status.rs lines 198-284): classification followed by
boot-entry construction, spec derivation and snapshot assembly. -/
def get_status (sysroot : Storage) (provider : ImageStatusProvider)
    (deployments : List Deployment) (booted_deployment : Option Deployment) :
    Except String (Deployments × Host) := do
  let c := classify deployments booted_deployment
  let deps : Deployments := { staged := c.staged, rollback := c.rollback, other := c.other }
  let staged ← mapEntry sysroot provider deps.staged
  let booted ← mapEntry sysroot provider booted_deployment
  let rollback ← mapEntry sysroot provider deps.rollback
  let spec := assemble_spec staged booted c.bootOrder
  let ty :=
    if (booted.map (fun b => b.image.isSome)).getD false then some HostType.BootcHost
    else none
  Except.ok
    (deps,
      { spec := spec
        status :=
          { staged := staged
            booted := booted
            rollback := rollback
            rollbackQueued := c.rollbackQueued
            ty := ty } })

/- ----------------------------------------------------------------
   Concrete fixtures used by counterexamples and witnesses
   ---------------------------------------------------------------- -/

/-- Fixture: a sysroot with a default store token. -/
def exSysroot : Storage := ⟨"default-store"⟩

/-- Fixture: an external container-image reference. -/
def exExtRef : OstreeImageReference := ⟨.ContainerPolicy, ⟨.Registry, "quay.io/example/os:latest"⟩⟩

/-- Fixture: a cached image status carrying the translated reference. -/
def exImgStatus : ImageStatus := ⟨ImageReference.fromOstree exExtRef, some "1.0", some "sha256:0"⟩

/-- Fixture: an image-status provider that always answers with `exImgStatus`. -/
def exProvider : ImageStatusProvider := fun _ _ => Except.ok ⟨some exImgStatus, none⟩

/-- Fixture: a tool-side reference with an explicit Insecure signature on a
non-registry transport. -/
def c6cex : ImageReference := ⟨some .Insecure, "oci", "quay.io/example/os:latest"⟩

/-- Fixture deployment A of the spec §8 scenario: staged, root r, index 3. -/
def exA : Deployment := ⟨"r", 3, true, false, "csum-a", 0, none, Except.ok none⟩

/-- Fixture deployment B of the spec §8 scenario: booted, root r, index 4. -/
def exB : Deployment := ⟨"r", 4, false, false, "csum-b", 0, none, Except.ok none⟩

/-- Fixture deployment C of the spec §8 scenario: root r, index 2. -/
def exC : Deployment := ⟨"r", 2, false, false, "csum-c", 0, none, Except.ok none⟩

/-- Fixture: a booted deployment whose origin carries a container image. -/
def exBootedImg : Deployment :=
  ⟨"r", 4, false, false, "csum-bi", 1, some ⟨false, Except.ok (some exExtRef)⟩, Except.ok none⟩

/-- Fixture: a booted deployment with no origin (no image). -/
def exBootedPlain : Deployment := ⟨"r", 5, false, false, "csum-bp", 0, none, Except.ok none⟩

/-- Fixture: a rollback candidate with a boot index below the booted one. -/
def exRollback : Deployment := ⟨"r", 1, false, false, "csum-r", 0, none, Except.ok none⟩

/-- Fixture: a deployment whose origin shows out-of-band local modification and
also carries a container-image reference. -/
def exIncompat : Deployment :=
  ⟨"r", 6, false, true, "csum-i", 2, some ⟨true, Except.ok (some exExtRef)⟩, Except.ok none⟩

/-- Fixture: a second staged-flagged deployment in the same root, later in input
order. -/
def exStagedLater : Deployment := ⟨"r", 8, true, false, "csum-l", 0, none, Except.ok none⟩

/-- Fixture: a deployment of a different state-root. -/
def exOther : Deployment := ⟨"s", 9, true, false, "csum-o", 0, none, Except.ok none⟩

/-- Fixture: a boot entry carrying an image status. -/
def exEntryImg : BootEntry := ⟨some exImgStatus, none, false, none, false, none⟩

/-- Fixture: a boot entry carrying no image status. -/
def exEntryPlain : BootEntry := ⟨none, none, false, none, false, none⟩

/- ----------------------------------------------------------------
   Theorems: reference translator
   ---------------------------------------------------------------- -/

/-- Evaluation of `transport_to_string` on `OciDir`. -/
theorem transport_to_string_ociDir : transport_to_string .OciDir = "oci" := by decide

/-- Evaluation of `transport_to_string` on `OciArchive`. -/
theorem transport_to_string_ociArchive : transport_to_string .OciArchive = "oci-archive" := by
  decide

/-- Evaluation of `transport_to_string` on `DockerArchive`. -/
theorem transport_to_string_dockerArchive :
    transport_to_string .DockerArchive = "docker-archive" := by decide

/-- Evaluation of `transport_to_string` on `ContainerStorage`. -/
theorem transport_to_string_containerStorage :
    transport_to_string .ContainerStorage = "containers-storage" := by decide

/-- Evaluation of `transport_to_string` on `Dir`. -/
theorem transport_to_string_dir : transport_to_string .Dir = "dir" := by decide

/-- Evaluation of `transport_to_string` on `Registry`. -/
theorem transport_to_string_registry : transport_to_string .Registry = "registry" := rfl

/-- C6 (counterexample): an explicit `Insecure` signature on a non-registry
transport does not survive the round trip, refuting the unrestricted
round-trip claim. -/
theorem roundtrip_insecure_cex :
    Transport.tryFromString c6cex.transport = some Transport.OciDir ∧
    reference_roundtrip c6cex ≠ some c6cex := by decide

/-- C6 (corrected): for every reference whose transport parses to a non-registry
transport and whose signature is not the explicit `Insecure` value, translating
to the external representation and back is the identity; and any reference whose
transport parses to the registry transport reaches a round-trip fixed point after
one round trip (the canonical form is stable under repeated round-tripping). -/
theorem reference_roundtrip_ok :
    (∀ (r : ImageReference) (t : Transport), Transport.tryFromString r.transport = some t →
      t ≠ Transport.Registry → r.signature ≠ some ImageSignature.Insecure →
      reference_roundtrip r = some r)
    ∧ (∀ (r r2 : ImageReference), Transport.tryFromString r.transport = some Transport.Registry →
      reference_roundtrip r = some r2 → reference_roundtrip r2 = some r2) := by
  constructor
  · rintro ⟨sig, tr, img⟩ t ht hreg hsig
    simp only [Transport.tryFromString] at ht
    split_ifs at ht with h1 h2 h3 h4 h5 h6
    · exact absurd (Option.some.inj ht).symm hreg
    · subst h2
      rcases sig with _ | s | _ | _
      · rfl
      · rfl
      · rfl
      · exact absurd rfl hsig
    · subst h3
      rcases sig with _ | s | _ | _
      · rfl
      · rfl
      · rfl
      · exact absurd rfl hsig
    · subst h4
      rcases sig with _ | s | _ | _
      · rfl
      · rfl
      · rfl
      · exact absurd rfl hsig
    · subst h5
      rcases sig with _ | s | _ | _
      · rfl
      · rfl
      · rfl
      · exact absurd rfl hsig
    · subst h6
      rcases sig with _ | s | _ | _
      · rfl
      · rfl
      · rfl
      · exact absurd rfl hsig
  · rintro ⟨sig, tr, img⟩ r2 ht hrt
    simp only [reference_roundtrip, OstreeImageReference.fromImage, ht, Option.map_map,
      Option.map_some'] at hrt
    rcases sig with _ | s | _ | _ <;>
      simp only [Function.comp, ImageReference.fromOstree, ImageSignature.fromSignatureSource,
        SignatureSource.fromImageSignature, transport_to_string, Option.some.injEq] at hrt <;>
      subst hrt <;> rfl

/-- C6 (witness): a concrete archive-transport reference round-trips to itself,
and a concrete canonical registry reference is a round-trip fixed point. -/
theorem reference_roundtrip_ok_witness :
    reference_roundtrip ⟨some (ImageSignature.OstreeRemote "fedora"), "oci-archive", "ex.io/a"⟩
        = some ⟨some (ImageSignature.OstreeRemote "fedora"), "oci-archive", "ex.io/a"⟩ ∧
    reference_roundtrip ⟨none, "registry", "ex.io/a"⟩ = some ⟨none, "registry", "ex.io/a"⟩ :=
  ⟨reference_roundtrip_ok.1 _ Transport.OciArchive (by decide) (by decide) (by decide),
   reference_roundtrip_ok.2 ⟨none, "registry", "ex.io/a"⟩ _ (by decide) (by decide)⟩

/-- C7 (confirmed): translation from an external allow-insecure reference yields
no tool-side signature; translation to the external representation of a
reference without a signature yields allow-insecure; an explicit `Insecure`
signature translated out and back becomes `none`; and translation from the
external representation never produces an explicit `Insecure` value. -/
theorem signature_collapse_expand :
    (∀ e : OstreeImageReference, e.sigverify = SignatureSource.ContainerPolicyAllowInsecure →
      (ImageReference.fromOstree e).signature = none)
    ∧ (∀ (r : ImageReference) (e : OstreeImageReference), r.signature = none →
      OstreeImageReference.fromImage r = some e →
      e.sigverify = SignatureSource.ContainerPolicyAllowInsecure)
    ∧ (∀ (r : ImageReference) (e : OstreeImageReference),
      r.signature = some ImageSignature.Insecure →
      OstreeImageReference.fromImage r = some e →
      (ImageReference.fromOstree e).signature = none)
    ∧ (∀ e : OstreeImageReference, (ImageReference.fromOstree e).signature ≠
      some ImageSignature.Insecure) := by
  refine ⟨?_, ?_, ?_, ?_⟩
  · rintro ⟨sv, ir⟩ h
    dsimp only at h
    subst h
    rfl
  · rintro ⟨sig, tr, img⟩ e hsig he
    dsimp only at hsig
    subst hsig
    simp only [OstreeImageReference.fromImage, Option.map_eq_some'] at he
    obtain ⟨t, -, rfl⟩ := he
    rfl
  · rintro ⟨sig, tr, img⟩ e hsig he
    dsimp only at hsig
    subst hsig
    simp only [OstreeImageReference.fromImage, Option.map_eq_some'] at he
    obtain ⟨t, -, rfl⟩ := he
    rfl
  · rintro ⟨sv, ir⟩
    rcases sv with s | _ | _ <;>
      simp [ImageReference.fromOstree, ImageSignature.fromSignatureSource]

/-- C7 (witness): the four signature rules instantiated on concrete references. -/
theorem signature_collapse_expand_witness :
    (ImageReference.fromOstree
        ⟨SignatureSource.ContainerPolicyAllowInsecure, ⟨Transport.Registry, "q"⟩⟩).signature
        = none ∧
    (⟨SignatureSource.ContainerPolicyAllowInsecure,
        ⟨Transport.Registry, "q"⟩⟩ : OstreeImageReference).sigverify
        = SignatureSource.ContainerPolicyAllowInsecure ∧
    (ImageReference.fromOstree
        ⟨SignatureSource.ContainerPolicyAllowInsecure, ⟨Transport.Registry, "q"⟩⟩).signature
        = none ∧
    (ImageReference.fromOstree ⟨SignatureSource.ContainerPolicy, ⟨Transport.Registry, "q"⟩⟩).signature
        ≠ some ImageSignature.Insecure :=
  ⟨signature_collapse_expand.1 _ rfl,
   signature_collapse_expand.2.1 ⟨none, "registry", "q"⟩ _ rfl (by decide),
   signature_collapse_expand.2.2.1 ⟨some ImageSignature.Insecure, "registry", "q"⟩ _ rfl
     (by decide),
   signature_collapse_expand.2.2.2 _⟩

/-- C9 (counterexample): on a malformed transport token the translation to the
external representation hits the source's `unwrap` panic (modelled as `none`)
instead of propagating an error value to the caller. -/
theorem from_image_malformed_cex :
    OstreeImageReference.fromImage ⟨none, "bogus", "quay.io/example/os:latest"⟩ = none := by
  decide

/-- C9 (corrected): translating a tool-side reference to the external
representation aborts (the source unwraps the transport parse, modelled as
`none`) exactly when the transport token is unrecognized; for every recognized
token the translation succeeds. -/
theorem from_image_failure_iff (r : ImageReference) :
    OstreeImageReference.fromImage r = none ↔ Transport.tryFromString r.transport = none := by
  unfold OstreeImageReference.fromImage
  cases h : Transport.tryFromString r.transport <;> simp [h]

/- ----------------------------------------------------------------
   Theorems: deployment classifier
   ---------------------------------------------------------------- -/

/-- Unfolding of the `staged` output of the classifier. -/
theorem classify_staged (ds : List Deployment) (b : Option Deployment) :
    (classify ds b).staged = (extractStaged (relatedOf ds b).1).1 := rfl

/-- Unfolding of the `rollback` output of the classifier. -/
theorem classify_rollback (ds : List Deployment) (b : Option Deployment) :
    (classify ds b).rollback = (relatedAfterBooted ds b).head? := rfl

/-- Unfolding of the `other` output of the classifier. -/
theorem classify_other (ds : List Deployment) (b : Option Deployment) :
    (classify ds b).other = (relatedAfterBooted ds b).tail ++ (relatedOf ds b).2 := rfl

/-- Unfolding of the `rollbackQueued` output of the classifier. -/
theorem classify_rollbackQueued (ds : List Deployment) (b : Option Deployment) :
    (classify ds b).rollbackQueued =
      match b, (relatedAfterBooted ds b).head? with
      | some bb, some r => decide (r.index < bb.index)
      | _, _ => false := rfl

/-- Unfolding of the `bootOrder` output of the classifier. -/
theorem classify_bootOrder (ds : List Deployment) (b : Option Deployment) :
    (classify ds b).bootOrder =
      if (classify ds b).rollbackQueued then BootOrder.Rollback else BootOrder.Default := rfl

/-- The staged extraction on the empty queue. -/
theorem extractStaged_nil : extractStaged [] = (none, []) := rfl

/-- Cons-step of the staged extraction: the head is taken when staged, and
otherwise survives in front of the recursive result. -/
theorem extractStaged_cons (d : Deployment) (ds : List Deployment) :
    extractStaged (d :: ds) =
      if d.staged then (some d, ds)
      else ((extractStaged ds).1, d :: (extractStaged ds).2) := by
  by_cases h : d.staged
  · simp [extractStaged, List.findIdx?_cons, h]
  · simp only [extractStaged, List.findIdx?_cons, h, if_neg, Bool.false_eq_true,
      Nat.zero_add, List.findIdx?_succ]
    cases hidx : List.findIdx? (fun d => d.staged) ds with
    | none => simp
    | some i => simp

/-- The staged output is the first staged-flagged deployment of the queue. -/
theorem extractStaged_fst_eq_find (l : List Deployment) :
    (extractStaged l).1 = l.find? (fun d => d.staged) := by
  induction l with
  | nil => rfl
  | cons d ds ih =>
    rw [extractStaged_cons]
    by_cases h : d.staged <;> simp [h, List.find?_cons, ih]

/-- The extracted staged deployment together with the remaining queue is a
permutation of the input queue. -/
theorem extractStaged_perm (l : List Deployment) :
    ((extractStaged l).1.toList ++ (extractStaged l).2).Perm l := by
  induction l with
  | nil => simp [extractStaged_nil]
  | cons d ds ih =>
    rw [extractStaged_cons]
    by_cases h : d.staged
    · simp [h]
    · simp only [h, if_neg, Bool.false_eq_true, ite_false]
      refine List.Perm.trans ?_ ((ih).cons d)
      cases hs : (extractStaged ds).1 with
      | none => simp
      | some s => exact List.perm_middle

/-- Membership in the remaining queue implies membership in the input. -/
theorem extractStaged_snd_subset {x : Deployment} {l : List Deployment}
    (h : x ∈ (extractStaged l).2) : x ∈ l :=
  (extractStaged_perm l).mem_iff.mp (List.mem_append_right _ h)

/-- A queue element other than the extracted one survives extraction. -/
theorem extractStaged_mem_snd {x : Deployment} {l : List Deployment}
    (hx : x ∈ l) (hne : (extractStaged l).1 ≠ some x) : x ∈ (extractStaged l).2 := by
  induction l with
  | nil => cases hx
  | cons d ds ih =>
    rw [extractStaged_cons] at hne ⊢
    by_cases h : d.staged
    · simp only [h, ite_true] at hne ⊢
      rcases List.mem_cons.mp hx with rfl | hx
      · exact absurd rfl hne
      · exact hx
    · simp only [h, Bool.false_eq_true, ite_false] at hne ⊢
      rcases List.mem_cons.mp hx with rfl | hx
      · exact List.mem_cons_self _ _
      · exact List.mem_cons_of_mem _ (ih hx hne)

/-- On a duplicate-free queue the extracted deployment does not survive in the
remaining queue, which is itself duplicate-free. -/
theorem extractStaged_nodup {s : Deployment} {l : List Deployment} (hnd : l.Nodup)
    (hs : (extractStaged l).1 = some s) :
    s ∉ (extractStaged l).2 ∧ (extractStaged l).2.Nodup := by
  have hp := (extractStaged_perm l).symm.nodup hnd
  rw [hs, Option.toList_some] at hp
  exact List.nodup_cons.mp hp

/-- Finding inside a filtered list is finding the conjunction. -/
theorem find_filter_eq (p q : Deployment → Bool) (l : List Deployment) :
    (l.filter q).find? p = l.find? (fun a => q a && p a) := by
  induction l with
  | nil => rfl
  | cons d ds ih =>
    by_cases hq : q d
    · by_cases hp : p d <;> simp [List.filter_cons, hq, hp, List.find?_cons, ih]
    · simp [List.filter_cons, hq, List.find?_cons, ih]

/-- The head-or-tail decomposition of a list. -/
theorem headD_toList_append_tail (l : List Deployment) : l.head?.toList ++ l.tail = l := by
  cases l <;> rfl

/-- Membership from the optional head. -/
theorem mem_of_head_eq {x : Deployment} {l : List Deployment} (h : l.head? = some x) : x ∈ l := by
  cases l with
  | nil => cases h
  | cons a t => exact (Option.some.inj h) ▸ List.mem_cons_self a t

/-- The state-root partition unfolded into its two filters. -/
theorem relatedOf_eq (ds : List Deployment) (b : Option Deployment) :
    relatedOf ds b =
      (ds.filter (fun d => decide (some d.osname = b.map (fun d => d.osname))),
       ds.filter (fun d => !decide (some d.osname = b.map (fun d => d.osname)))) := by
  simp only [relatedOf, List.partition_eq_filter_filter]
  exact Prod.ext rfl (List.filter_congr (fun x _ => rfl))

/-- C1 (counterexample): with no booted deployment given, a staged-flagged
deployment is not extracted as staged but classified as other, refuting the
claim that the related partition then contains all deployments. -/
theorem classify_no_booted_cex :
    exA.staged = true ∧ (classify [exA] none).staged = none ∧
    (classify [exA] none).other = [exA] := by decide

/-- C1 (corrected): when no booted deployment is given the related partition is
empty — staged and rollback are `none`, rollback is never queued, and all
deployments are classified as other in input order; only when a booted
deployment is given does the partition keep deployments sharing its state-root,
the rest (by state-root) being classified as other. -/
theorem classify_no_booted_all_other (ds : List Deployment) (b : Deployment) :
    ((classify ds none).staged = none ∧ (classify ds none).rollback = none ∧
      (classify ds none).rollbackQueued = false ∧ (classify ds none).other = ds) ∧
    (∀ d ∈ ds, d.osname ≠ b.osname → d ∈ (classify ds (some b)).other) := by
  constructor
  · have hrel : relatedOf ds none = ([], ds) := by
      rw [relatedOf_eq]
      simp
    have hrest : relatedAfterBooted ds none = [] := by
      simp [relatedAfterBooted, hrel, extractStaged_nil]
    refine ⟨?_, ?_, ?_, ?_⟩
    · rw [classify_staged, hrel]
      rfl
    · rw [classify_rollback, hrest]
      rfl
    · rw [classify_rollbackQueued]
    · rw [classify_other, hrest, hrel]
      rfl
  · intro d hd hos
    rw [classify_other]
    refine List.mem_append_right _ ?_
    rw [relatedOf_eq]
    simp only [Option.map_some', List.mem_filter, Option.some.injEq]
    exact ⟨hd, by simp [hos]⟩

/-- C1 (witness): the corrected statement instantiated on the one-element staged
list with no booted deployment, and on a foreign-root deployment with a booted
deployment given. -/
theorem classify_no_booted_all_other_witness :
    (((classify [exA] none).staged = none ∧ (classify [exA] none).rollback = none ∧
      (classify [exA] none).rollbackQueued = false ∧ (classify [exA] none).other = [exA]) ∧
    (∀ d ∈ [exA], d.osname ≠ exOther.osname → d ∈ (classify [exA] (some exOther)).other)) :=
  classify_no_booted_all_other [exA] exOther

/-- C4 (confirmed): `rollbackQueued` holds exactly when a booted deployment was
given, a rollback deployment was found, and the rollback's boot index is below
the booted one's; and the boot-order verdict is `Rollback` exactly when
`rollbackQueued` holds. -/
theorem rollback_queued_iff (ds : List Deployment) (booted : Option Deployment) :
    ((classify ds booted).rollbackQueued = true ↔
      ∃ b r, booted = some b ∧ (classify ds booted).rollback = some r ∧ r.index < b.index) ∧
    ((classify ds booted).bootOrder = BootOrder.Rollback ↔
      (classify ds booted).rollbackQueued = true) := by
  constructor
  · rw [classify_rollbackQueued, classify_rollback]
    cases booted with
    | none => simp
    | some b =>
      cases hr : (relatedAfterBooted ds (some b)).head? with
      | none => simp
      | some r => simp
  · rw [classify_bootOrder]
    cases h : (classify ds booted).rollbackQueued <;> simp

/-- The head-or-tail decomposition of a list in front of an appended tail. -/
theorem headD_toList_append_tail_append (l t : List Deployment) :
    l.head?.toList ++ (l.tail ++ t) = l ++ t := by
  cases l <;> rfl

/-- Finding with pointwise-equal predicates agrees. -/
theorem find_congr (p q : Deployment → Bool) (l : List Deployment) (h : ∀ x, p x = q x) :
    l.find? p = l.find? q := by
  induction l with
  | nil => rfl
  | cons d ds ih => rw [List.find?_cons, List.find?_cons, h d, ih]

/-- The two components of the partition rejoin to a permutation of the input. -/
theorem relatedOf_append_perm (ds : List Deployment) (b : Option Deployment) :
    ((relatedOf ds b).1 ++ (relatedOf ds b).2).Perm ds := by
  rw [relatedOf_eq]
  exact List.filter_append_perm _ ds

/-- C10 (confirmed): provided the booted deployment is not itself flagged staged
(a staged deployment is by definition not yet booted, spec glossary), the
classifier outputs partition the input — the concatenation of staged, rollback
and other is a permutation of the input list with the booted deployment (when
given) removed, so each non-booted input deployment appears exactly once across
the three outputs and the booted one in none of them. -/
theorem classify_partition_perm (ds : List Deployment) (booted : Option Deployment)
    (hb : ∀ b, booted = some b → b.staged = false) :
    ((classify ds booted).staged.toList ++ (classify ds booted).rollback.toList ++
      (classify ds booted).other).Perm
      (match booted with
       | some b => ds.filter (fun d => !(d.equal b))
       | none => ds) := by
  rw [classify_staged, classify_rollback, classify_other, List.append_assoc,
    headD_toList_append_tail_append]
  cases booted with
  | none =>
    have hrel : relatedAfterBooted ds none = (extractStaged (relatedOf ds none).1).2 := rfl
    rw [hrel, ← List.append_assoc]
    exact ((extractStaged_perm _).append_right _).trans (relatedOf_append_perm ds none)
  | some b =>
    have hbs : b.staged = false := hb b rfl
    have hrel : relatedAfterBooted ds (some b)
        = (extractStaged (relatedOf ds (some b)).1).2.filter (fun f => !(f.equal b)) := rfl
    have hO : (relatedOf ds (some b)).2.filter (fun f => !(f.equal b))
        = (relatedOf ds (some b)).2 := by
      refine List.filter_eq_self.mpr ?_
      intro x hx
      rw [relatedOf_eq] at hx
      obtain ⟨-, hx2⟩ := List.mem_filter.mp hx
      have hos : x.osname ≠ b.osname := by simpa using hx2
      have hne : x ≠ b := fun hxe => hos (by rw [hxe])
      simp [Deployment.equal, hne]
    have hst1 : (extractStaged (relatedOf ds (some b)).1).1.toList.filter (fun f => !(f.equal b))
        = (extractStaged (relatedOf ds (some b)).1).1.toList := by
      cases hs : (extractStaged (relatedOf ds (some b)).1).1 with
      | none => rfl
      | some s =>
        have hstag : s.staged = true := by
          have hfd := extractStaged_fst_eq_find (relatedOf ds (some b)).1
          rw [hs] at hfd
          exact List.find?_some hfd.symm
        have hne : s ≠ b := fun hse => by rw [hse, hbs] at hstag; cases hstag
        simp [Deployment.equal, hne]
    have h2 : (ds.filter (fun f => !(f.equal b))).Perm
        (((relatedOf ds (some b)).1 ++ (relatedOf ds (some b)).2).filter
          (fun f => !(f.equal b))) :=
      (List.Perm.filter _ (relatedOf_append_perm ds (some b))).symm
    have h3 : (((relatedOf ds (some b)).1).filter (fun f => !(f.equal b))).Perm
        (((extractStaged (relatedOf ds (some b)).1).1.toList ++
          (extractStaged (relatedOf ds (some b)).1).2).filter (fun f => !(f.equal b))) :=
      (List.Perm.filter _ (extractStaged_perm _)).symm
    rw [hrel]
    refine List.Perm.symm ?_
    refine h2.trans ?_
    rw [List.filter_append, hO]
    refine ((h3.append_right _).trans ?_)
    rw [List.filter_append, hst1, List.append_assoc]

/-- C10 (witness): the partition permutation on the spec §8 scenario list
`[A staged, B booted, C]` with booted `B`. -/
theorem classify_partition_perm_witness :
    ((classify [exA, exB, exC] (some exB)).staged.toList ++
      (classify [exA, exB, exC] (some exB)).rollback.toList ++
      (classify [exA, exB, exC] (some exB)).other).Perm
      ([exA, exB, exC].filter (fun d => !(d.equal exB))) :=
  classify_partition_perm [exA, exB, exC] (some exB)
    (fun b hb => by injection hb with h; rw [← h]; rfl)

/-- C5 (confirmed): on a duplicate-free deployment list with a booted deployment
given, if some deployment of the booted state-root is staged-flagged then the
classifier's staged output is the first such deployment in input order, that
deployment appears in neither rollback nor other, and every further
staged-flagged deployment (other than it and the booted one) still appears in
rollback or other. -/
theorem staged_first_wins (ds : List Deployment) (b s : Deployment) (hnd : ds.Nodup)
    (hfind : ds.find? (fun d => decide (d.osname = b.osname) && d.staged) = some s) :
    (classify ds (some b)).staged = some s ∧
    (classify ds (some b)).rollback ≠ some s ∧
    s ∉ (classify ds (some b)).other ∧
    (∀ d ∈ ds, d.staged = true → d ≠ s → d ≠ b →
      d ∈ (classify ds (some b)).rollback.toList ++ (classify ds (some b)).other) := by
  have hstg : (extractStaged (relatedOf ds (some b)).1).1 = some s := by
    rw [extractStaged_fst_eq_find, relatedOf_eq]
    show ((ds.filter _).find? _) = some s
    rw [find_filter_eq,
      find_congr _ (fun d => decide (d.osname = b.osname) && d.staged) ds (fun x => by simp)]
    exact hfind
  have hps := List.find?_some hfind
  have hsos : s.osname = b.osname := by
    simp only [Bool.and_eq_true, decide_eq_true_eq] at hps
    exact hps.1
  have hRnd : (relatedOf ds (some b)).1.Nodup := by
    rw [relatedOf_eq]
    exact hnd.filter _
  obtain ⟨hs_not, hnd2⟩ := extractStaged_nodup hRnd hstg
  have hrel : relatedAfterBooted ds (some b)
      = (extractStaged (relatedOf ds (some b)).1).2.filter (fun f => !(f.equal b)) := rfl
  have hsrel : s ∉ relatedAfterBooted ds (some b) := by
    rw [hrel]
    intro hc
    exact hs_not (List.mem_filter.mp hc).1
  have hsO : s ∉ (relatedOf ds (some b)).2 := by
    rw [relatedOf_eq]
    intro hc
    obtain ⟨-, hc2⟩ := List.mem_filter.mp hc
    have : s.osname ≠ b.osname := by simpa using hc2
    exact this hsos
  refine ⟨?_, ?_, ?_, ?_⟩
  · rw [classify_staged]
    exact hstg
  · rw [classify_rollback]
    intro hc
    exact hsrel (mem_of_head_eq hc)
  · rw [classify_other]
    intro hc
    rcases List.mem_append.mp hc with h | h
    · exact hsrel (List.mem_of_mem_tail h)
    · exact hsO h
  · intro d hd hstag hds hdb
    rw [classify_rollback, classify_other]
    by_cases hp : d.osname = b.osname
    · have hdR : d ∈ (relatedOf ds (some b)).1 := by
        rw [relatedOf_eq]
        exact List.mem_filter.mpr ⟨hd, by simp [hp]⟩
      have hd2 : d ∈ (extractStaged (relatedOf ds (some b)).1).2 := by
        refine extractStaged_mem_snd hdR ?_
        rw [hstg]
        intro hc
        exact hds (Option.some.inj hc).symm
      have hdrel : d ∈ relatedAfterBooted ds (some b) := by
        rw [hrel]
        exact List.mem_filter.mpr ⟨hd2, by simp [Deployment.equal, hdb]⟩
      rw [← headD_toList_append_tail (relatedAfterBooted ds (some b))] at hdrel
      rcases List.mem_append.mp hdrel with h | h
      · exact List.mem_append_left _ h
      · exact List.mem_append_right _ (List.mem_append_left _ h)
    · have hdO : d ∈ (relatedOf ds (some b)).2 := by
        rw [relatedOf_eq]
        exact List.mem_filter.mpr ⟨hd, by simp [hp]⟩
      exact List.mem_append_right _ (List.mem_append_right _ hdO)

/-- C5 (witness): on the spec §8 scenario list `[A staged, B booted, C]`, the
staged output is `A`, `A` is in neither rollback nor other, and the remaining
deployments stay eligible. -/
theorem staged_first_wins_witness :
    (classify [exA, exB, exC] (some exB)).staged = some exA ∧
    (classify [exA, exB, exC] (some exB)).rollback ≠ some exA ∧
    exA ∉ (classify [exA, exB, exC] (some exB)).other ∧
    (∀ d ∈ [exA, exB, exC], d.staged = true → d ≠ exA → d ≠ exB →
      d ∈ (classify [exA, exB, exC] (some exB)).rollback.toList ++
        (classify [exA, exB, exC] (some exB)).other) :=
  staged_first_wins [exA, exB, exC] exB exA (by decide) (by decide)

/- ----------------------------------------------------------------
   Theorems: boot entry builder and host status assembler
   ---------------------------------------------------------------- -/

/-- Unfolding of the modelled derived default of `HostSpec`. -/
theorem hostSpec_default_eq : (default : HostSpec) = ⟨none, BootOrder.Default⟩ := rfl

/-- C8 (confirmed): when the origin shows out-of-band local modification the
produced boot entry is incompatible with no image, no cached update and no
store, regardless of any container-image reference present in the origin; and
when the origin is absent entirely the entry is compatible with no image. -/
theorem boot_entry_incompatible_wins (S : Storage) (P : ImageStatusProvider) (d : Deployment) :
    (∀ o, d.origin = some o → o.hasRpmostreeStuff = true →
      boot_entry_from_deployment S P d =
        Except.ok { image := none, cachedUpdate := none, incompatible := true, store := none,
                    pinned := d.pinned,
                    ostree := some { checksum := d.csum, deploySerial := d.deployserial } }) ∧
    (d.origin = none →
      boot_entry_from_deployment S P d =
        Except.ok { image := none, cachedUpdate := none, incompatible := false, store := none,
                    pinned := d.pinned,
                    ostree := some { checksum := d.csum, deploySerial := d.deployserial } }) := by
  obtain ⟨os, idx, stg, pin, cs, dser, orig, sres⟩ := d
  constructor
  · rintro ⟨rpm, ci⟩ ho hr
    cases ho
    cases hr
    rfl
  · intro ho
    cases ho
    rfl

/-- C8 (witness): the incompatible rule on a deployment whose origin has local
modifications and an image reference, and the no-origin rule on a plain
deployment. -/
theorem boot_entry_incompatible_wins_witness :
    boot_entry_from_deployment exSysroot exProvider exIncompat =
      Except.ok { image := none, cachedUpdate := none, incompatible := true, store := none,
                  pinned := true, ostree := some { checksum := "csum-i", deploySerial := 2 } } ∧
    boot_entry_from_deployment exSysroot exProvider exBootedPlain =
      Except.ok { image := none, cachedUpdate := none, incompatible := false, store := none,
                  pinned := false,
                  ostree := some { checksum := "csum-bp", deploySerial := 0 } } :=
  ⟨(boot_entry_incompatible_wins exSysroot exProvider exIncompat).1 _ rfl rfl,
   (boot_entry_incompatible_wins exSysroot exProvider exBootedPlain).2 rfl⟩

/-- C2 (counterexample): with a staged entry present but carrying no image and a
booted entry carrying one, the derived `HostSpec.image` is absent — the booted
entry's image address is not used, refuting the staged-else-booted fallback as
claimed. -/
theorem hostspec_image_staged_no_image_cex :
    (get_status exSysroot exProvider [exA, exBootedImg] (some exBootedImg)).map
        (fun p => (p.2.status.staged.isSome,
          p.2.status.staged.bind (fun e => e.image),
          p.2.status.booted.bind (fun e => e.image),
          p.2.spec.image))
      = Except.ok (true, none, some exImgStatus, none) := by decide

/-- C2 (corrected): the derived `HostSpec.image` is the staged entry's image
address when a staged entry exists and carries an image; when a staged entry
exists without an image the spec image is absent (the booted entry is not
consulted); only when no staged entry exists is the booted entry's image used,
and when neither yields an image the spec image is absent. -/
theorem hostspec_image_selection (staged booted : Option BootEntry) (bo : BootOrder) :
    (∀ e st, staged = some e → e.image = some st →
      (assemble_spec staged booted bo).image = some st.image) ∧
    (∀ e, staged = some e → e.image = none →
      (assemble_spec staged booted bo).image = none) ∧
    (∀ e st, staged = none → booted = some e → e.image = some st →
      (assemble_spec staged booted bo).image = some st.image) ∧
    (staged = none → booted.bind (fun e => e.image) = none →
      (assemble_spec staged booted bo).image = none) := by
  refine ⟨?_, ?_, ?_, ?_⟩
  · rintro e st rfl hst
    simp [assemble_spec, Option.or, hst]
  · rintro e rfl hst
    simp [assemble_spec, Option.or, hst, hostSpec_default_eq]
  · rintro e st rfl rfl hst
    simp [assemble_spec, Option.or, hst]
  · rintro rfl hb
    simp [assemble_spec, Option.or, hb, hostSpec_default_eq]

/-- C2 (witness): the four image-selection rules instantiated on concrete
entries. -/
theorem hostspec_image_selection_witness :
    (assemble_spec (some exEntryImg) none BootOrder.Default).image = some exImgStatus.image ∧
    (assemble_spec (some exEntryPlain) (some exEntryImg) BootOrder.Default).image = none ∧
    (assemble_spec none (some exEntryImg) BootOrder.Default).image = some exImgStatus.image ∧
    (assemble_spec none none BootOrder.Default).image = none :=
  ⟨(hostspec_image_selection (some exEntryImg) none BootOrder.Default).1
      exEntryImg exImgStatus rfl rfl,
   (hostspec_image_selection (some exEntryPlain) (some exEntryImg) BootOrder.Default).2.1
      exEntryPlain rfl rfl,
   (hostspec_image_selection none (some exEntryImg) BootOrder.Default).2.2.1
      exEntryImg exImgStatus rfl rfl rfl,
   (hostspec_image_selection none none BootOrder.Default).2.2.2 rfl rfl⟩

/-- C3 (counterexample): with a booted deployment carrying no image and a
rollback queued, the classifier's verdict is `Rollback` (`rollbackQueued` is
true) but the assembled `HostSpec.bootOrder` is `Default`, refuting the claim
that the spec boot order always equals the classifier verdict. -/
theorem hostspec_bootorder_default_cex :
    (get_status exSysroot exProvider [exBootedPlain, exRollback] (some exBootedPlain)).map
        (fun p => (p.2.status.rollbackQueued, p.2.spec.bootOrder, p.2.spec.image))
      = Except.ok (true, BootOrder.Default, none) := by decide

/-- C3 (corrected): the assembled `HostSpec.bootOrder` equals the classifier's
boot-order verdict whenever the staged-else-booted entry carries an image; when
no image is found the whole spec falls back to its default, so the boot order
is `Default` even if a rollback is queued. -/
theorem hostspec_bootorder_selection (staged booted : Option BootEntry) (bo : BootOrder) :
    (((staged.or booted).bind (fun e => e.image)).isSome = true →
      (assemble_spec staged booted bo).bootOrder = bo) ∧
    ((staged.or booted).bind (fun e => e.image) = none →
      assemble_spec staged booted bo = default) := by
  constructor
  · intro h
    cases hx : (staged.or booted).bind (fun e => e.image) with
    | none => rw [hx] at h; cases h
    | some img => simp [assemble_spec, hx]
  · intro h
    simp [assemble_spec, h]

/-- C3 (witness): the boot-order selection rules instantiated on concrete
entries. -/
theorem hostspec_bootorder_selection_witness :
    (assemble_spec (some exEntryImg) none BootOrder.Rollback).bootOrder = BootOrder.Rollback ∧
    assemble_spec none (some exEntryPlain) BootOrder.Rollback = default :=
  ⟨(hostspec_bootorder_selection (some exEntryImg) none BootOrder.Rollback).1 rfl,
   (hostspec_bootorder_selection none (some exEntryPlain) BootOrder.Rollback).2 rfl⟩
